import Mathlib

/-!
Verification of the T-DNA insertion-resolution engine.

This file gives a shallow embedding of the query engine implemented in the
repository's TypeScript module (`TdnaData` with `parseConfirmed`,
`parseLocation`, `getTDNAlines`, `getGeneData`, `getTDNALineDetails`) and
proves or refutes the stated properties of its behaviour.

Modelling conventions:
* JavaScript strings are Lean `String`s; all identifiers in the data tables
  are ASCII, so `toUpperCase()` is modelled by a per-character ASCII
  uppercase map (`jsToUpper`).
* `String.prototype.includes` is unanchored substring containment
  (`jsIncludes`).
* `String.prototype.split(sep)` for a non-empty separator is `jsSplit`
  (left-to-right, non-overlapping, keeping empty segments, as in JS).
* `parseInt(s, 10)` is `jsParseInt10`: skip leading whitespace, optional
  sign, then a maximal digit run; no digits gives `NaN`, modelled as `none`.
* A JS `number` that can be `NaN` (the parsed insertion position) is
  modelled as `Option Int`; `NaN` is `none` and is never a member of the
  CDS position set, exactly as in JS where `Set.has(NaN)` is false for a
  set populated with integers.
* A JS `Set` iterated in insertion order is a duplicate-free list built
  first-occurrence-first (`jsSetToList`); a JS `Map` populated by
  `if (!m.has(k)) m.set(k, v)` and read with `entries()` is an association
  list built first-occurrence-first (`uniqByV1`).
* The `cdspos` set, built in the source by adding every integer `i` with
  `c.start <= i <= c.stop` for each CDS row `c`, is modelled by its
  membership predicate `cdsposHas`: an integer position is in the set iff
  some CDS row's closed interval contains it.
* TSV lexing and gzip I/O are upstream of everything the properties talk
  about; tables enter the model as parsed row lists.  The location table
  keeps its raw fields (`List String`) because extracting the position from
  the compound field 5 is itself one of the operations under verification.
-/

/-! ## JavaScript string and collection primitives -/

/-- `sub.isPrefixOf`-style check used by `jsIncludes`: does `sub` occur as a
prefix of `hay`?  Delegates to core `List.isPrefixOf`. -/
def listIsPrefix (sub hay : List Char) : Bool :=
  sub.isPrefixOf hay

/-- Unanchored substring search over character lists: JS
`hay.includes(sub)`. -/
def containsSub (hay sub : List Char) : Bool :=
  match hay with
  | [] => sub.isEmpty
  | _ :: t => sub.isPrefixOf hay || containsSub t sub

/-- JS `s.includes(sub)`. -/
def jsIncludes (s sub : String) : Bool :=
  containsSub s.data sub.data

/-- Splitting worker: `fuel` bounds the recursion by the input length; the
separator is assumed non-empty (every call site splits on `" vs "` or
`"-"`). -/
def splitGo (sep : List Char) : Nat → List Char → List Char → List (List Char)
  | _, [], cur => [cur]
  | 0, l, cur => [cur ++ l]
  | fuel + 1, c :: rest, cur =>
    if sep.isPrefixOf (c :: rest) then
      cur :: splitGo sep fuel (List.drop (sep.length - 1) rest) []
    else
      splitGo sep fuel rest (cur ++ [c])

/-- JS `s.split(sep)` for a non-empty separator. -/
def jsSplit (s sep : String) : List String :=
  (splitGo sep.data s.data.length s.data []).map String.mk

/-- `s.split(sep)[0]`: the split list is always non-empty. -/
def jsSplitHead (s sep : String) : String :=
  (jsSplit s sep).headD ""

/-- Value of a digit run, most significant first. -/
def digitsToNat (cs : List Char) : Nat :=
  cs.foldl (fun n c => n * 10 + (c.toNat - 48)) 0

/-- JS `parseInt(s, 10)`: leading whitespace skipped, optional sign, then a
maximal run of decimal digits; `none` models `NaN` (no digits found). -/
def jsParseInt10 (s : String) : Option Int :=
  let cs := s.data.dropWhile Char.isWhitespace
  let signed : Int × List Char :=
    match cs with
    | '-' :: rest => (-1, rest)
    | '+' :: rest => (1, rest)
    | rest => (1, rest)
  let ds := signed.2.takeWhile Char.isDigit
  if ds.isEmpty then none else some (signed.1 * (digitsToNat ds : Int))

/-- ASCII lowercase/uppercase letter pairs, the domain on which JS
`toUpperCase()` acts for the identifiers in these tables. -/
def upperPairs : List (Char × Char) :=
  [('a', 'A'), ('b', 'B'), ('c', 'C'), ('d', 'D'), ('e', 'E'), ('f', 'F'),
   ('g', 'G'), ('h', 'H'), ('i', 'I'), ('j', 'J'), ('k', 'K'), ('l', 'L'),
   ('m', 'M'), ('n', 'N'), ('o', 'O'), ('p', 'P'), ('q', 'Q'), ('r', 'R'),
   ('s', 'S'), ('t', 'T'), ('u', 'U'), ('v', 'V'), ('w', 'W'), ('x', 'X'),
   ('y', 'Y'), ('z', 'Z')]

/-- Uppercase one character (ASCII). -/
def jsCharToUpper (c : Char) : Char :=
  match upperPairs.lookup c with
  | some u => u
  | none => c

/-- JS `s.toUpperCase()` restricted to ASCII input. -/
def jsToUpper (s : String) : String :=
  String.mk (s.data.map jsCharToUpper)

/-- `Array.from(new Set(xs))`: deduplicate keeping first occurrences, in
insertion order. -/
def jsSetToList (l : List String) : List String :=
  l.foldl (fun acc x => if acc.contains x then acc else acc ++ [x]) []

/-- JS `x || dflt` where `x : string | undefined`: `undefined` and the empty
string both fall back to the default. -/
def jsOrDefault (s : Option String) (dflt : String) : String :=
  match s with
  | none => dflt
  | some v => if v = "" then dflt else v

/-! ## Data model (the three tables and the result rows) -/

/-- One parsed annotation (GFF) row.  The source's `parseGff` keeps columns
0,1,2,3,4,6,8 of the tab-split line; rows enter the model already
structured. -/
structure GffRow where
  chr : String
  source : String
  type : String
  start : Int
  stop : Int
  strand : String
  info : String
deriving Repr, DecidableEq

/-- One confirmed-insertion row (header columns `Target Gene`, `T-DNA line`,
`Hit region`, `HM`, `ABRC`). -/
structure ConfirmedRow where
  targetGene : String
  tdnaLine : String
  hitRegion : String
  hm : String
  abrc : String
deriving Repr, DecidableEq

/-- One location row after `parseLocation`: raw label (column 0), chromosome
(column 3), and the position extracted from compound column 4 (`none` when
`parseInt` produced `NaN`). -/
structure LocationRow where
  V1 : String
  chr : String
  pos : Option Int
deriving Repr, DecidableEq

/-- One element of `getTDNALineDetails`' result. -/
structure InsertionMatch where
  lineId : String
  chromosome : String
  position : Option Int
  hitRegion : String
  hm : String
  abrc : String
deriving Repr, DecidableEq

/-- Result object of `getGeneData`. -/
structure GeneData where
  gene : String
  chromosome : String
  start : Int
  «end» : Int
  strand : String
  features : List GffRow
deriving Repr, DecidableEq

/-- The loaded handle: the three in-memory tables of the `TdnaData` class. -/
structure TdnaData where
  gff : List GffRow
  confirmed : List ConfirmedRow
  location : List LocationRow
deriving Repr, DecidableEq

/-! ## Load-time parsing -/

/-- Source `parseConfirmed` (minus TSV lexing): keep only rows with
`Hit region === 'Exon'`, `HM` in `{HMc, HMn}` and `ABRC !== 'NotSent'`,
then uppercase `Target Gene`. -/
def parseConfirmed (rows : List ConfirmedRow) : List ConfirmedRow :=
  (rows.filter fun r =>
      r.hitRegion == "Exon" && ["HMc", "HMn"].contains r.hm && r.abrc != "NotSent").map
    fun r => { r with targetGene := jsToUpper r.targetGene }

/-- Source: `parseInt(r[4].split(' vs ')[0].split('-')[0], 10)` — the
`extractPrimaryPosition` operation of the spec. -/
def extractPrimaryPosition (field : String) : Option Int :=
  jsParseInt10 (jsSplitHead (jsSplitHead field " vs ") "-")

/-- Source `parseLocation` (minus TSV lexing): each raw row is the list of
its tab-separated fields; keep column 0 as the label, column 3 as the
chromosome, and extract the position from column 4. -/
def parseLocation (rows : List (List String)) : List LocationRow :=
  rows.map fun r =>
    { V1 := r.getD 0 "", chr := r.getD 3 "", pos := extractPrimaryPosition (r.getD 4 "") }

/-- `TdnaData.load`, with the GFF table entering already structured and the
other two tables going through their row parsers. -/
def loadTdna (gffRows : List GffRow) (confirmedRows : List ConfirmedRow)
    (locationRows : List (List String)) : TdnaData :=
  { gff := gffRows, confirmed := parseConfirmed confirmedRows,
    location := parseLocation locationRows }

/-! ## Query pipeline

The named definitions below are the let-bound intermediate values shared
verbatim by `getTDNAlines` and `getTDNALineDetails` in the source (both
methods recompute them with identical code). -/

/-- `this.confirmed.filter(c => c['Target Gene'] === gene)`. -/
def geneConfirmed (d : TdnaData) (gene : String) : List ConfirmedRow :=
  d.confirmed.filter fun c => c.targetGene == gene

/-- `Array.from(new Set(geneconfirmed.map(g => g['T-DNA line'])))`. -/
def lineIds (d : TdnaData) (gene : String) : List String :=
  jsSetToList ((geneConfirmed d gene).map fun g => g.tdnaLine)

/-- `this.gff.filter(g => g.info.includes('ID='+gene))` followed by the
UTR/CDS type filter. -/
def geneGffUtr (d : TdnaData) (gene : String) : List GffRow :=
  (d.gff.filter fun g => jsIncludes g.info ("ID=" ++ gene)).filter
    fun g => ["CDS", "five_prime_UTR", "three_prime_UTR"].contains g.type

/-- `geneGff.filter(g => g.type === 'CDS')`. -/
def geneCds (d : TdnaData) (gene : String) : List GffRow :=
  (geneGffUtr d gene).filter fun g => g.type == "CDS"

/-- Membership in the `cdspos` set.  The source builds a `Set<number>` by
adding every integer `i` with `c.start <= i <= c.stop` for each CDS row
`c`; an (integer) position is in that set exactly when some CDS interval
contains it, and `NaN` (`none`) is in no such set. -/
def cdsposHas (cds : List GffRow) : Option Int → Bool
  | none => false
  | some p => cds.any fun c => c.start ≤ p && p ≤ c.stop

/-- `this.location.filter(loc => lines.some(l => loc.V1.includes(l)))`. -/
def locMatches (d : TdnaData) (gene : String) : List LocationRow :=
  d.location.filter fun loc => (lineIds d gene).any fun l => jsIncludes loc.V1 l

/-- The `uniq` map of both query methods: a `Map` keyed by `m.V1`, populated
with `if (!uniq.has(m.V1)) uniq.set(m.V1, f m)` while iterating the
matches, read back in insertion order. -/
def uniqByV1 {α : Type} (f : LocationRow → α) (ms : List LocationRow) :
    List (String × α) :=
  ms.foldl (fun u m => if u.any fun e => e.1 == m.V1 then u else u ++ [(m.V1, f m)]) []

/-- Source `TdnaData.getTDNAlines`: early return on no confirmed lines, the
`uniq` map keyed by label with the position as value, the CDS-membership
filter, and the label projection. -/
def TdnaData.getTDNAlines (d : TdnaData) (gene : String) : List String :=
  if (lineIds d gene).isEmpty then []
  else
    ((uniqByV1 (fun m => m.pos) (locMatches d gene)).filter fun e =>
        cdsposHas (geneCds d gene) e.2).map fun e => e.1

/-- The record constructed for each surviving `uniq` entry by
`getTDNALineDetails`: `confirmedData = geneconfirmed.find(c => c['T-DNA line']
=== lineId)` and each metadata field is `confirmedData?.[field] ||
'Unknown'`. -/
def detailsEntry (d : TdnaData) (gene : String)
    (e : String × Option Int × String) : InsertionMatch :=
  { lineId := e.1, chromosome := e.2.2, position := e.2.1,
    hitRegion :=
      jsOrDefault (((geneConfirmed d gene).find? fun c => c.tdnaLine == e.1).map
        fun c => c.hitRegion) "Unknown",
    hm :=
      jsOrDefault (((geneConfirmed d gene).find? fun c => c.tdnaLine == e.1).map
        fun c => c.hm) "Unknown",
    abrc :=
      jsOrDefault (((geneConfirmed d gene).find? fun c => c.tdnaLine == e.1).map
        fun c => c.abrc) "Unknown" }

/-- Source `TdnaData.getTDNALineDetails`: same pipeline as `getTDNAlines`,
with the `uniq` map additionally carrying the chromosome, and each surviving
entry expanded into an `InsertionMatch`. -/
def TdnaData.getTDNALineDetails (d : TdnaData) (gene : String) : List InsertionMatch :=
  if (lineIds d gene).isEmpty then []
  else
    ((uniqByV1 (fun m => (m.pos, m.chr)) (locMatches d gene)).filter fun e =>
        cdsposHas (geneCds d gene) e.2.1).map (detailsEntry d gene)

/-- Source `TdnaData.getGeneData` (the repository's visualization-bundle
builder; `null` models the gene-not-found outcome).  `Math.min`/`Math.max`
over the non-empty feature list are folds of `min`/`max` seeded with the
first feature's coordinates. -/
def TdnaData.getGeneData (d : TdnaData) (gene : String) : Option GeneData :=
  match (d.gff.filter fun g => jsIncludes g.info ("ID=" ++ gene)).filter
      (fun g => ["gene", "CDS", "five_prime_UTR", "three_prime_UTR", "exon"].contains g.type) with
  | [] => none
  | f0 :: rest =>
    some { gene := gene, chromosome := f0.chr,
           start := ((f0 :: rest).map GffRow.start).foldl min f0.start,
           «end» := ((f0 :: rest).map GffRow.stop).foldl max f0.stop,
           strand := f0.strand, features := f0 :: rest }

/-! ## Concrete handles used by the counterexamples and witnesses -/

/-- Annotation for the spec's concrete scenario: gene `AT1G25320` with one
CDS interval `[8863750, 8866120]`. -/
def gffC3 : List GffRow :=
  [{ chr := "Chr1", source := "Araport11", type := "CDS", start := 8863750,
     stop := 8866120, strand := "+", info := "ID=AT1G25320" }]

/-- The spec's concrete confirmed row for `SALK_019496`. -/
def confC3 : List ConfirmedRow :=
  [{ targetGene := "AT1G25320", tdnaLine := "SALK_019496", hitRegion := "Exon",
     hm := "HMc", abrc := "Sent" }]

/-- The spec's concrete location row: suffixed label and compound position
field. -/
def locC3 : List (List String) :=
  [["SALK_019496.1.x", "a", "b", "Chr1", "8864721-8864722 vs 0-0"]]

/-- Loaded handle for the spec's concrete scenario. -/
def dC3 : TdnaData := loadTdna gffC3 confC3 locC3

/-- Handle whose location table holds labels `SALK_1` and `SALK_10`, with
gene `G1` confirmed only for line `SALK_1`; both positions sit inside
`G1`'s CDS. -/
def dC1 : TdnaData := loadTdna
  [{ chr := "Chr1", source := "x", type := "CDS", start := 1, stop := 100,
     strand := "+", info := "ID=G1" }]
  [{ targetGene := "G1", tdnaLine := "SALK_1", hitRegion := "Exon", hm := "HMc",
     abrc := "Sent" }]
  [["SALK_1", "a", "b", "Chr1", "10-11 vs 0-0"],
   ["SALK_10", "a", "b", "Chr1", "20-21 vs 0-0"]]

/-- The single annotation row of `dC2`: its attribute token is
`ID=AT1G25320`, a strict superstring of the query `AT1G2532`. -/
def gffRowC2 : GffRow :=
  { chr := "Chr1", source := "x", type := "gene", start := 100, stop := 200,
    strand := "+", info := "ID=AT1G25320" }

/-- Handle for the identifier-boundary counterexample on feature lookup. -/
def dC2 : TdnaData := loadTdna [gffRowC2] [] []

/-- Handle where line `L`'s two recorded coordinates (10 and 11) share the
same location label `L.1`; both positions are inside `G1`'s CDS. -/
def dC4 : TdnaData := loadTdna
  [{ chr := "Chr1", source := "x", type := "CDS", start := 1, stop := 100,
     strand := "+", info := "ID=G1" }]
  [{ targetGene := "G1", tdnaLine := "L", hitRegion := "Exon", hm := "HMc",
     abrc := "Sent" }]
  [["L.1", "a", "b", "Chr1", "10-11 vs 0-0"],
   ["L.1", "a", "b", "Chr1", "11-12 vs 0-0"]]

/-- Variant of `dC4` with distinct labels `L.1` and `L.2` for the two
coordinates. -/
def dC4b : TdnaData := loadTdna
  [{ chr := "Chr1", source := "x", type := "CDS", start := 1, stop := 100,
     strand := "+", info := "ID=G1" }]
  [{ targetGene := "G1", tdnaLine := "L", hitRegion := "Exon", hm := "HMc",
     abrc := "Sent" }]
  [["L.1", "a", "b", "Chr1", "10-11 vs 0-0"],
   ["L.2", "a", "b", "Chr1", "11-12 vs 0-0"]]

/-- Handle whose location table lists position 50 before position 10, both
inside `G1`'s CDS, for two labels of the confirmed line `L`. -/
def dC5 : TdnaData := loadTdna
  [{ chr := "Chr1", source := "x", type := "CDS", start := 1, stop := 100,
     strand := "+", info := "ID=G1" }]
  [{ targetGene := "G1", tdnaLine := "L", hitRegion := "Exon", hm := "HMc",
     abrc := "Sent" }]
  [["L.a", "a", "b", "Chr1", "50-51 vs 0-0"],
   ["L.b", "a", "b", "Chr1", "10-11 vs 0-0"]]

/-- The single annotation row of `dC9`: it references gene `ATX` but its
type (`mRNA`) is outside the display-feature type set. -/
def gffRowC9 : GffRow :=
  { chr := "Chr1", source := "x", type := "mRNA", start := 1, stop := 2,
    strand := "+", info := "ID=ATX" }

/-- Handle where gene `ATX` is present in the annotation table only through
a row whose type is not in the display set. -/
def dC9 : TdnaData := loadTdna [gffRowC9] [] []

/-- The step function of the `uniq` construction (used to state the fold
lemmas about `uniqByV1`). -/
def uniqStep {α : Type} (f : LocationRow → α) (u : List (String × α))
    (m : LocationRow) : List (String × α) :=
  if u.any fun e => e.1 == m.V1 then u else u ++ [(m.V1, f m)]

/-- The confirmed row retained from `confC3` by the load-time filter. -/
def confRowEx : ConfirmedRow :=
  { targetGene := "AT1G25320", tdnaLine := "SALK_019496", hitRegion := "Exon",
    hm := "HMc", abrc := "Sent" }

/-- The single match produced by `dC3.getTDNALineDetails "AT1G25320"`. -/
def mC8 : InsertionMatch :=
  { lineId := "SALK_019496.1.x", chromosome := "Chr1", position := some 8864721,
    hitRegion := "Unknown", hm := "Unknown", abrc := "Unknown" }

/-- The bundle produced by `dC2.getGeneData "AT1G2532"`. -/
def bC2 : GeneData :=
  { gene := "AT1G2532", chromosome := "Chr1", start := 100, «end» := 200,
    strand := "+", features := [gffRowC2] }

/-! ## Helper lemmas: ASCII uppercasing -/

/-- A successful `lookup` pulls its pair out of the association list. -/
theorem lookup_mem_pairs {l : List (Char × Char)} {c u : Char}
    (h : l.lookup c = some u) : (c, u) ∈ l := by
  induction l with
  | nil => simp at h
  | cons p t ih =>
    obtain ⟨k, v⟩ := p
    rw [List.lookup_cons] at h
    by_cases hk : (c == k) = true
    · rw [hk] at h
      cases h
      have hck : c = k := beq_iff_eq.mp hk
      subst hck
      exact List.mem_cons_self _ _
    · rw [Bool.not_eq_true] at hk
      rw [hk] at h
      exact List.mem_cons_of_mem _ (ih h)

/-- No uppercase image is itself a lowercase letter. -/
theorem upperPairs_snd_lookup : ∀ p ∈ upperPairs, upperPairs.lookup p.2 = none := by
  decide

/-- The result of `jsCharToUpper` is never a lowercase letter. -/
theorem lookup_jsCharToUpper (c : Char) :
    upperPairs.lookup (jsCharToUpper c) = none := by
  unfold jsCharToUpper
  cases h : upperPairs.lookup c with
  | none => exact h
  | some u => exact upperPairs_snd_lookup (c, u) (lookup_mem_pairs h)

/-- `jsCharToUpper` is idempotent. -/
theorem jsCharToUpper_idem (c : Char) :
    jsCharToUpper (jsCharToUpper c) = jsCharToUpper c := by
  show (match upperPairs.lookup (jsCharToUpper c) with
        | some u => u
        | none => jsCharToUpper c) = jsCharToUpper c
  rw [lookup_jsCharToUpper]

/-- `jsToUpper` is idempotent. -/
theorem jsToUpper_idem (s : String) : jsToUpper (jsToUpper s) = jsToUpper s := by
  have h : (s.data.map jsCharToUpper).map jsCharToUpper = s.data.map jsCharToUpper := by
    rw [List.map_map]
    exact List.map_congr_left fun c _ => jsCharToUpper_idem c
  simpa [jsToUpper] using congrArg String.mk h

/-- Anything in the image of `jsToUpper` is a fixed point of `jsToUpper`. -/
theorem jsToUpper_fixed_of_eq {s g : String} (h : jsToUpper s = g) :
    jsToUpper g = g := by
  rw [← h]
  exact jsToUpper_idem s

/-! ## Helper lemmas: the load-time registry filter -/

/-- Every row retained by `parseConfirmed` passed the eligibility filter and
has an uppercased target gene. -/
theorem mem_parseConfirmed {rows : List ConfirmedRow} {r : ConfirmedRow}
    (h : r ∈ parseConfirmed rows) :
    r.hitRegion = "Exon" ∧ (r.hm = "HMc" ∨ r.hm = "HMn") ∧ r.abrc ≠ "NotSent" ∧
      jsToUpper r.targetGene = r.targetGene := by
  unfold parseConfirmed at h
  obtain ⟨r₀, hr₀, hre⟩ := List.mem_map.mp h
  have hf := (List.mem_filter.mp hr₀).2
  simp only [Bool.and_eq_true, beq_iff_eq, bne_iff_ne] at hf
  obtain ⟨⟨hhit, hhm⟩, habrc⟩ := hf
  have hhm' : r₀.hm = "HMc" ∨ r₀.hm = "HMn" := by
    have := List.elem_iff.mp hhm
    simpa using this
  subst hre
  exact ⟨hhit, hhm', habrc, jsToUpper_fixed_of_eq rfl⟩

/-! ## Helper lemmas: the `uniq` first-occurrence map -/

/-- `uniqByV1` is the fold of `uniqStep` from the empty map. -/
theorem uniqByV1_eq_foldl {α : Type} (f : LocationRow → α) (ms : List LocationRow) :
    uniqByV1 f ms = ms.foldl (uniqStep f) [] := rfl

/-- Everything in the fold came from the accumulator or from a row of the
input, paired with its label. -/
theorem mem_foldl_uniqStep {α : Type} (f : LocationRow → α) :
    ∀ (ms : List LocationRow) (acc : List (String × α)) (e : String × α),
      e ∈ ms.foldl (uniqStep f) acc → e ∈ acc ∨ ∃ m ∈ ms, e = (m.V1, f m) := by
  intro ms
  induction ms with
  | nil => intro acc e h; exact Or.inl h
  | cons m t ih =>
    intro acc e h
    rw [List.foldl_cons] at h
    rcases ih _ e h with h' | ⟨m', hm', he⟩
    · unfold uniqStep at h'
      by_cases hc : (acc.any fun x => x.1 == m.V1) = true
      · rw [if_pos hc] at h'
        exact Or.inl h'
      · rw [if_neg hc] at h'
        rcases List.mem_append.mp h' with h'' | h''
        · exact Or.inl h''
        · exact Or.inr ⟨m, List.mem_cons_self _ _, by simpa using h''⟩
    · exact Or.inr ⟨m', List.mem_cons_of_mem _ hm', he⟩

/-- Everything in the `uniq` map is a labelled value of some matching row. -/
theorem mem_uniqByV1 {α : Type} {f : LocationRow → α} {ms : List LocationRow}
    {e : String × α} (h : e ∈ uniqByV1 f ms) : ∃ m ∈ ms, e = (m.V1, f m) := by
  rcases mem_foldl_uniqStep f ms [] e (by simpa [uniqByV1_eq_foldl] using h) with h' | h'
  · simp at h'
  · exact h'

/-- Keys are preserved by projecting the values of the `uniq` map. -/
theorem any_key_map_proj (acc : List (String × Option Int × String)) (v : String) :
    ((acc.map fun e => (e.1, e.2.1)).any fun x => x.1 == v)
      = (acc.any fun x => x.1 == v) := by
  induction acc with
  | nil => rfl
  | cons p t ih => simp [ih]

/-- Projecting the details-valued `uniq` map onto positions gives the
lines-valued `uniq` map: the two query paths build the same keyed map. -/
theorem foldl_uniqStep_proj :
    ∀ (ms : List LocationRow) (acc : List (String × Option Int × String)),
      ms.foldl (uniqStep fun m => m.pos) (acc.map fun e => (e.1, e.2.1))
        = (ms.foldl (uniqStep fun m => (m.pos, m.chr)) acc).map fun e => (e.1, e.2.1) := by
  intro ms
  induction ms with
  | nil => intro acc; simp
  | cons m t ih =>
    intro acc
    rw [List.foldl_cons, List.foldl_cons]
    by_cases hc : (acc.any fun x => x.1 == m.V1) = true
    · rw [show uniqStep (fun m => m.pos) (acc.map fun e => (e.1, e.2.1)) m
            = acc.map fun e => (e.1, e.2.1) from
          if_pos (by rw [any_key_map_proj]; exact hc),
        show uniqStep (fun m => (m.pos, m.chr)) acc m = acc from if_pos hc]
      exact ih acc
    · rw [show uniqStep (fun m => m.pos) (acc.map fun e => (e.1, e.2.1)) m
            = (acc.map fun e => (e.1, e.2.1)) ++ [(m.V1, m.pos)] from
          if_neg (by rw [any_key_map_proj]; exact hc),
        show uniqStep (fun m => (m.pos, m.chr)) acc m
            = acc ++ [(m.V1, (m.pos, m.chr))] from if_neg hc]
      rw [show (acc.map fun e => ((e.1 : String), e.2.1)) ++ [(m.V1, m.pos)]
            = (acc ++ [(m.V1, (m.pos, m.chr))]).map fun e => (e.1, e.2.1) from by simp]
      exact ih (acc ++ [(m.V1, (m.pos, m.chr))])

/-- The keys of the fold extend the accumulator's keys by a subsequence of
the input's labels. -/
theorem foldl_uniqStep_fst_sublist {α : Type} (f : LocationRow → α) :
    ∀ (ms : List LocationRow) (acc : List (String × α)),
      ∃ t, (ms.foldl (uniqStep f) acc).map Prod.fst = acc.map Prod.fst ++ t ∧
        t.Sublist (ms.map LocationRow.V1) := by
  intro ms
  induction ms with
  | nil => intro acc; exact ⟨[], by simp, List.nil_sublist _⟩
  | cons m t ih =>
    intro acc
    rw [List.foldl_cons]
    by_cases hc : (acc.any fun x => x.1 == m.V1) = true
    · rw [show uniqStep f acc m = acc from if_pos hc]
      obtain ⟨u, hu, hs⟩ := ih acc
      exact ⟨u, hu, hs.cons _⟩
    · rw [show uniqStep f acc m = acc ++ [(m.V1, f m)] from if_neg hc]
      obtain ⟨u, hu, hs⟩ := ih (acc ++ [(m.V1, f m)])
      refine ⟨m.V1 :: u, ?_, hs.cons₂ _⟩
      rw [hu, List.map_append]
      simp

/-- The key sequence of the `uniq` map is a subsequence of the matched rows'
label column. -/
theorem uniqByV1_fst_sublist {α : Type} (f : LocationRow → α) (ms : List LocationRow) :
    ((uniqByV1 f ms).map Prod.fst).Sublist (ms.map LocationRow.V1) := by
  obtain ⟨t, ht, hs⟩ := foldl_uniqStep_fst_sublist f ms []
  rw [uniqByV1_eq_foldl, ht]
  simpa using hs

/-- With pairwise-distinct labels the `uniq` map keeps every row. -/
theorem foldl_uniqStep_of_nodup {α : Type} (f : LocationRow → α) :
    ∀ (ms : List LocationRow) (acc : List (String × α)),
      (∀ m ∈ ms, (acc.any fun e => e.1 == m.V1) = false) →
      (ms.map LocationRow.V1).Nodup →
      ms.foldl (uniqStep f) acc = acc ++ ms.map fun m => (m.V1, f m) := by
  intro ms
  induction ms with
  | nil => intro acc _ _; simp
  | cons m t ih =>
    intro acc hacc hnd
    rw [List.foldl_cons]
    rw [show uniqStep f acc m = acc ++ [(m.V1, f m)] from
      if_neg (by rw [hacc m (List.mem_cons_self _ _)]; simp)]
    rw [List.map_cons, List.nodup_cons] at hnd
    have hstep : ∀ m' ∈ t, ((acc ++ [(m.V1, f m)]).any fun e => e.1 == m'.V1) = false := by
      intro m' hm'
      rw [List.any_append]
      have h1 := hacc m' (List.mem_cons_of_mem _ hm')
      have h2 : m.V1 ≠ m'.V1 := fun heq => hnd.1 (heq ▸ List.mem_map_of_mem _ hm')
      simp [h1, h2]
    rw [ih (acc ++ [(m.V1, f m)]) hstep hnd.2]
    simp

/-- With pairwise-distinct labels, `uniqByV1` is just the labelled value
map. -/
theorem uniqByV1_of_nodup {α : Type} (f : LocationRow → α) {ms : List LocationRow}
    (hnd : (ms.map LocationRow.V1).Nodup) :
    uniqByV1 f ms = ms.map fun m => (m.V1, f m) := by
  rw [uniqByV1_eq_foldl, foldl_uniqStep_of_nodup f ms [] (fun _ _ => rfl) hnd]
  simp

/-- `cdspos` membership over an empty CDS list is always false. -/
theorem cdsposHas_nil : ∀ p, cdsposHas [] p = false := by
  intro p
  cases p <;> rfl

/-! ## Claim theorems -/

/-- C7: after load, every row held in the confirmed-insertion registry has
`hit_region = "Exon"`, homozygosity status in `{HMc, HMn}`, stock-center
status different from `"NotSent"`, and an uppercased target gene; the
eligibility filter is applied at load time, so queries only ever see
eligible rows. -/
theorem c7_registry_invariant (rows : List ConfirmedRow) (r : ConfirmedRow)
    (h : r ∈ parseConfirmed rows) :
    r.hitRegion = "Exon" ∧ (r.hm = "HMc" ∨ r.hm = "HMn") ∧ r.abrc ≠ "NotSent" ∧
      r.targetGene = jsToUpper r.targetGene := by
  obtain ⟨h1, h2, h3, h4⟩ := mem_parseConfirmed h
  exact ⟨h1, h2, h3, h4.symm⟩

/-- Witness for C7 at the concrete confirmed table of the spec's scenario. -/
theorem c7_registry_invariant_witness :
    confRowEx ∈ parseConfirmed confC3 ∧
      (confRowEx.hitRegion = "Exon" ∧ (confRowEx.hm = "HMc" ∨ confRowEx.hm = "HMn") ∧
        confRowEx.abrc ≠ "NotSent" ∧ confRowEx.targetGene = jsToUpper confRowEx.targetGene) :=
  ⟨by decide, c7_registry_invariant confC3 confRowEx (by decide)⟩

/-- C8: every match returned by `getTDNALineDetails` has its position inside
the `cdspos` set computed from the gene's CDS rows, and a gene none of whose
candidate positions is inside any CDS interval yields the empty list (not an
error). -/
theorem c8_position_in_cds (d : TdnaData) (g : String) :
    (∀ m ∈ d.getTDNALineDetails g, cdsposHas (geneCds d g) m.position = true) ∧
      ((∀ loc ∈ d.location, cdsposHas (geneCds d g) loc.pos = false) →
        d.getTDNALineDetails g = []) := by
  constructor
  · intro m hm
    unfold TdnaData.getTDNALineDetails at hm
    by_cases h : (lineIds d g).isEmpty = true
    · rw [if_pos h] at hm
      simp at hm
    · rw [if_neg h] at hm
      obtain ⟨e, he, hme⟩ := List.mem_map.mp hm
      have hpred := (List.mem_filter.mp he).2
      rw [← hme]
      exact hpred
  · intro hall
    unfold TdnaData.getTDNALineDetails
    by_cases h : (lineIds d g).isEmpty = true
    · rw [if_pos h]
    · rw [if_neg h]
      have hnil : (uniqByV1 (fun m => (m.pos, m.chr)) (locMatches d g)).filter
          (fun e => cdsposHas (geneCds d g) e.2.1) = [] := by
        rw [List.filter_eq_nil_iff]
        intro e he
        obtain ⟨mloc, hmem, rfl⟩ := mem_uniqByV1 he
        have hl : mloc ∈ d.location := by
          unfold locMatches at hmem
          exact (List.mem_filter.mp hmem).1
        simp [hall mloc hl]
      rw [hnil]
      rfl

/-- Witness for C8 at the spec's concrete scenario. -/
theorem c8_position_in_cds_witness :
    mC8 ∈ dC3.getTDNALineDetails "AT1G25320" ∧
      cdsposHas (geneCds dC3 "AT1G25320") mC8.position = true :=
  ⟨by decide, (c8_position_in_cds dC3 "AT1G25320").1 mC8 (by decide)⟩

/-- C10: the two independently implemented query paths agree —
`getTDNAlines` returns exactly the `lineId` column of `getTDNALineDetails`,
element for element and in the same order, for every handle and gene. -/
theorem c10_lines_eq_details_lineIds (d : TdnaData) (g : String) :
    d.getTDNAlines g = (d.getTDNALineDetails g).map InsertionMatch.lineId := by
  unfold TdnaData.getTDNAlines TdnaData.getTDNALineDetails
  by_cases h : (lineIds d g).isEmpty = true
  · rw [if_pos h, if_pos h]
    rfl
  · rw [if_neg h, if_neg h]
    have hu : uniqByV1 (fun m => m.pos) (locMatches d g)
        = (uniqByV1 (fun m => (m.pos, m.chr)) (locMatches d g)).map fun e => (e.1, e.2.1) := by
      have hp := foldl_uniqStep_proj (locMatches d g) []
      simpa [uniqByV1_eq_foldl] using hp
    rw [hu, List.filter_map, List.map_map, List.map_map]
    rfl

/-- C9 (amended): for a gene with no annotation row whose attribute string
contains `ID=` + gene, `getGeneData` returns `none` (the `GeneNotFound`
outcome) and both list queries return empty lists rather than an error.
(The converse direction of the claim fails: see the counterexample.) -/
theorem c9_absent_gene (d : TdnaData) (g : String)
    (habs : ∀ r ∈ d.gff, jsIncludes r.info ("ID=" ++ g) = false) :
    d.getGeneData g = none ∧ d.getTDNAlines g = [] ∧ d.getTDNALineDetails g = [] := by
  have hfil : d.gff.filter (fun r => jsIncludes r.info ("ID=" ++ g)) = [] := by
    rw [List.filter_eq_nil_iff]
    intro r hr
    simp [habs r hr]
  have hcds : geneCds d g = [] := by
    unfold geneCds geneGffUtr
    rw [hfil]
    rfl
  refine ⟨?_, ?_, ?_⟩
  · unfold TdnaData.getGeneData
    rw [hfil]
    rfl
  · unfold TdnaData.getTDNAlines
    by_cases h : (lineIds d g).isEmpty = true
    · rw [if_pos h]
    · rw [if_neg h]
      have hnil : (uniqByV1 (fun m => m.pos) (locMatches d g)).filter
          (fun e => cdsposHas (geneCds d g) e.2) = [] := by
        rw [List.filter_eq_nil_iff]
        intro e _
        rw [hcds]
        simp [cdsposHas_nil]
      rw [hnil]
      rfl
  · unfold TdnaData.getTDNALineDetails
    by_cases h : (lineIds d g).isEmpty = true
    · rw [if_pos h]
    · rw [if_neg h]
      have hnil : (uniqByV1 (fun m => (m.pos, m.chr)) (locMatches d g)).filter
          (fun e => cdsposHas (geneCds d g) e.2.1) = [] := by
        rw [List.filter_eq_nil_iff]
        intro e _
        rw [hcds]
        simp [cdsposHas_nil]
      rw [hnil]
      rfl

/-- Witness for C9 at the spec's concrete handle with an unknown gene. -/
theorem c9_absent_gene_witness :
    dC3.getGeneData "ZZZ" = none ∧ dC3.getTDNAlines "ZZZ" = [] ∧
      dC3.getTDNALineDetails "ZZZ" = [] :=
  c9_absent_gene dC3 "ZZZ" (by decide)

/-- C9 counterexample: the gene `ATX` is referenced by a row of the
annotation table (so it is not "absent from annotation"), yet `getGeneData`
still fails with `none`, because the row's type (`mRNA`) is outside the
display-feature type set — refuting the claim that the bundle fails only
for genes absent from the annotation table. -/
theorem c9_counterexample :
    gffRowC9 ∈ dC9.gff ∧ jsIncludes gffRowC9.info ("ID=" ++ "ATX") = true ∧
      dC9.getGeneData "ATX" = none := by
  decide

/-- C6 (amended): the raw engine query is only one-directionally
case-insensitive — every line returned for `g` is also returned for
`toUpper(g)` (a query that is not already uppercase returns the empty list,
because stored target genes are uppercased at load time). Equality fails:
see the counterexample. -/
theorem c6_upper_superset (gffRows : List GffRow) (confirmedRows : List ConfirmedRow)
    (locationRows : List (List String)) (g x : String)
    (hx : x ∈ (loadTdna gffRows confirmedRows locationRows).getTDNAlines g) :
    x ∈ (loadTdna gffRows confirmedRows locationRows).getTDNAlines (jsToUpper g) := by
  by_cases hg : jsToUpper g = g
  · rwa [hg]
  · exfalso
    have hconf : geneConfirmed (loadTdna gffRows confirmedRows locationRows) g = [] := by
      unfold geneConfirmed
      rw [List.filter_eq_nil_iff]
      intro c hc
      have hc' : c ∈ parseConfirmed confirmedRows := hc
      have hfix := (mem_parseConfirmed hc').2.2.2
      intro hbe
      have heq : c.targetGene = g := beq_iff_eq.mp (by simpa using hbe)
      exact hg (heq ▸ hfix)
    have hlines : lineIds (loadTdna gffRows confirmedRows locationRows) g = [] := by
      unfold lineIds
      rw [hconf]
      rfl
    unfold TdnaData.getTDNAlines at hx
    rw [hlines] at hx
    simp at hx

/-- Witness for C6 at the spec's concrete handle. -/
theorem c6_upper_superset_witness :
    "SALK_019496.1.x" ∈ dC3.getTDNAlines (jsToUpper "AT1G25320") :=
  c6_upper_superset gffC3 confC3 locC3 "AT1G25320" "SALK_019496.1.x" (by decide)

/-- C6 counterexample: querying the lowercase spelling of the gene id
changes the result — the raw engine query is case-sensitive. -/
theorem c6_counterexample :
    ¬ (dC3.getTDNAlines "at1g25320" = dC3.getTDNAlines (jsToUpper "at1g25320")) := by
  decide

/-- C5 (amended): the output order of the resolver is the first-occurrence
order of labels in the location table — the output's label sequence is a
subsequence of the location table's label column — not ascending genomic
position.  The order is still a deterministic function of the tables. -/
theorem c5_order_follows_location_table (d : TdnaData) (g : String) :
    ((d.getTDNALineDetails g).map InsertionMatch.lineId).Sublist
      (d.location.map LocationRow.V1) := by
  unfold TdnaData.getTDNALineDetails
  by_cases h : (lineIds d g).isEmpty = true
  · rw [if_pos h]
    exact List.nil_sublist _
  · rw [if_neg h]
    rw [List.map_map]
    rw [show (((uniqByV1 (fun m => (m.pos, m.chr)) (locMatches d g)).filter fun e =>
          cdsposHas (geneCds d g) e.2.1).map (InsertionMatch.lineId ∘ detailsEntry d g))
        = ((uniqByV1 (fun m => (m.pos, m.chr)) (locMatches d g)).filter fun e =>
          cdsposHas (geneCds d g) e.2.1).map Prod.fst from
      List.map_congr_left fun e _ => rfl]
    have h2 := (List.filter_sublist (p := fun e => cdsposHas (geneCds d g) e.2.1)
      (uniqByV1 (fun m => (m.pos, m.chr)) (locMatches d g))).map Prod.fst
    have h3 := uniqByV1_fst_sublist (fun m => (m.pos, m.chr)) (locMatches d g)
    have h4 : ((locMatches d g).map LocationRow.V1).Sublist (d.location.map LocationRow.V1) := by
      unfold locMatches
      exact (List.filter_sublist _).map _
    exact h2.trans (h3.trans h4)

/-- C5 counterexample: a handle whose location table lists position 50
before position 10 (both inside the gene's CDS) produces an output whose
position sequence is `[50, 10]` — not sorted by ascending genomic
position. -/
theorem c5_counterexample :
    (dC5.getTDNALineDetails "G1").filterMap InsertionMatch.position = [50, 10] ∧
      ¬ List.Sorted (· ≤ ·) ((dC5.getTDNALineDetails "G1").filterMap InsertionMatch.position) := by
  constructor
  · decide
  · decide

/-- C4 (amended): when the labels of the location table are pairwise
distinct, every matching recorded coordinate whose position is inside the
gene's CDS appears in the resolver's output — distinct positions are all
kept as long as they sit under distinct labels.  (Rows sharing one label
keep only the first position: see the counterexample.) -/
theorem c4_all_positions_distinct_labels (d : TdnaData) (g : String) (r : LocationRow)
    (hnd : (d.location.map LocationRow.V1).Nodup)
    (hr : r ∈ d.location)
    (hmatch : ((lineIds d g).any fun l => jsIncludes r.V1 l) = true)
    (hne : (lineIds d g).isEmpty = false)
    (hcds : cdsposHas (geneCds d g) r.pos = true) :
    ∃ m ∈ d.getTDNALineDetails g, m.lineId = r.V1 ∧ m.position = r.pos := by
  unfold TdnaData.getTDNALineDetails
  rw [if_neg (by rw [hne]; simp)]
  have hmem : r ∈ locMatches d g := by
    unfold locMatches
    exact List.mem_filter.mpr ⟨hr, hmatch⟩
  have hndm : ((locMatches d g).map LocationRow.V1).Nodup := by
    have hsub : (locMatches d g).Sublist d.location := by
      unfold locMatches
      exact List.filter_sublist _
    exact (hsub.map LocationRow.V1).nodup hnd
  rw [uniqByV1_of_nodup _ hndm]
  refine ⟨detailsEntry d g (r.V1, (r.pos, r.chr)), ?_, rfl, rfl⟩
  apply List.mem_map_of_mem
  apply List.mem_filter.mpr
  exact ⟨List.mem_map.mpr ⟨r, hmem, rfl⟩, hcds⟩

/-- Witness for C4 on a handle whose line `L` has two coordinates under the
distinct labels `L.1` and `L.2`: the second coordinate is in the output. -/
theorem c4_all_positions_witness :
    (⟨"L.2", "Chr1", some 11⟩ : LocationRow) ∈ dC4b.location ∧
      ∃ m ∈ dC4b.getTDNALineDetails "G1", m.lineId = "L.2" ∧ m.position = some 11 :=
  ⟨by decide,
    c4_all_positions_distinct_labels dC4b "G1" ⟨"L.2", "Chr1", some 11⟩ (by decide)
      (by decide) (by decide) (by decide) (by decide)⟩

/-- C4 counterexample: line `L` has two distinct recorded coordinates (10
and 11), both inside `G1`'s CDS, but recorded under the same label `L.1`;
the output keeps only the first position 10, not every distinct position. -/
theorem c4_counterexample :
    (dC4.getTDNALineDetails "G1").map InsertionMatch.position = [some 10] ∧
      (⟨"L.1", "Chr1", some 11⟩ : LocationRow) ∈ dC4.location ∧
      cdsposHas (geneCds dC4 "G1") (some 11) = true := by
  decide

/-- C3 (amended): on the spec's concrete scenario the engine returns the raw
suffixed location label `"SALK_019496.1.x"` (not the canonical line id
`"SALK_019496"`), and `getTDNALineDetails` reports position 8864721. -/
theorem c3_concrete_scenario :
    dC3.getTDNAlines "AT1G25320" = ["SALK_019496.1.x"] ∧
      (dC3.getTDNALineDetails "AT1G25320").map InsertionMatch.position = [some 8864721] := by
  decide

/-- C3 counterexample: the value returned for the spec's concrete scenario
is the suffixed label, which differs from the canonical line id the claim
requires. -/
theorem c3_counterexample :
    dC3.getTDNAlines "AT1G25320" ≠ ["SALK_019496"] ∧
      dC3.getTDNAlines "AT1G25320" = ["SALK_019496.1.x"] := by
  decide

/-- C2 (amended): feature lookup selects exactly the annotation rows whose
attribute string contains `ID=` + query as an unanchored, case-sensitive
substring, restricted to the relevant type set — not exact `ID=` token
matching.  Stated for all three query paths: (1) the features of a
successful `getGeneData` bundle are exactly (membership in both directions)
the substring-selected rows of display type; (2) the gene-feature filter
shared verbatim by `getTDNAlines` and `getTDNALineDetails` (`geneGffUtr`)
holds exactly the substring-selected rows of UTR/CDS type; (3) every match
either list query accepts owes its position to a CDS row from that same
substring selection. -/
theorem c2_substring_feature_lookup (d : TdnaData) (g : String) :
    (∀ b, d.getGeneData g = some b → ∀ r : GffRow,
        (r ∈ b.features ↔ r ∈ d.gff ∧ jsIncludes r.info ("ID=" ++ g) = true ∧
          r.type ∈ ["gene", "CDS", "five_prime_UTR", "three_prime_UTR", "exon"])) ∧
    (∀ r : GffRow,
        (r ∈ geneGffUtr d g ↔ r ∈ d.gff ∧ jsIncludes r.info ("ID=" ++ g) = true ∧
          r.type ∈ ["CDS", "five_prime_UTR", "three_prime_UTR"])) ∧
    (∀ m ∈ d.getTDNALineDetails g, ∃ r ∈ geneGffUtr d g, r.type = "CDS" ∧
        ∃ p : Int, m.position = some p ∧ r.start ≤ p ∧ p ≤ r.stop) := by
  refine ⟨?_, ?_, ?_⟩
  · intro b hb r
    unfold TdnaData.getGeneData at hb
    split at hb
    · exact absurd hb (by simp)
    · rename_i f0 rest heq
      injection hb with hb'
      subst hb'
      constructor
      · intro hr
        have hr' : r ∈ f0 :: rest := hr
        rw [← heq] at hr'
        have h2 := List.mem_filter.mp hr'
        have h1 := List.mem_filter.mp h2.1
        exact ⟨h1.1, h1.2, by simpa using h2.2⟩
      · rintro ⟨hmem, hincl, htype⟩
        show r ∈ f0 :: rest
        rw [← heq]
        exact List.mem_filter.mpr ⟨List.mem_filter.mpr ⟨hmem, hincl⟩, by simpa using htype⟩
  · intro r
    unfold geneGffUtr
    constructor
    · intro hr
      have h2 := List.mem_filter.mp hr
      have h1 := List.mem_filter.mp h2.1
      exact ⟨h1.1, h1.2, by simpa using h2.2⟩
    · rintro ⟨hmem, hincl, htype⟩
      exact List.mem_filter.mpr ⟨List.mem_filter.mpr ⟨hmem, hincl⟩, by simpa using htype⟩
  · intro m hm
    unfold TdnaData.getTDNALineDetails at hm
    by_cases h : (lineIds d g).isEmpty = true
    · rw [if_pos h] at hm
      simp at hm
    · rw [if_neg h] at hm
      obtain ⟨e, he, hme⟩ := List.mem_map.mp hm
      have hpred := (List.mem_filter.mp he).2
      subst hme
      cases hp : e.2.1 with
      | none =>
        rw [hp] at hpred
        simp [cdsposHas] at hpred
      | some p =>
        rw [hp] at hpred
        simp only [cdsposHas, List.any_eq_true, Bool.and_eq_true, decide_eq_true_eq] at hpred
        obtain ⟨r, hrc, hrp1, hrp2⟩ := hpred
        have h2 := List.mem_filter.mp hrc
        exact ⟨r, h2.1, by simpa using h2.2, p, hp, hrp1, hrp2⟩

/-- Witness for C2: the completeness direction of the characterization puts
the `ID=AT1G25320` row into the bundle built for the query `"AT1G2532"`. -/
theorem c2_substring_feature_lookup_witness :
    gffRowC2 ∈ bC2.features :=
  ((c2_substring_feature_lookup dC2 "AT1G2532").1 bC2 (by decide) gffRowC2).mpr
    ⟨by decide, by decide, by decide⟩

/-- C2 counterexample: the row with attribute `ID=AT1G25320` is returned by
feature lookup for the query `"AT1G2532"` (refuting exact-token matching),
while the case-variant query `"at1g25320"` — which a case-insensitive
matcher would resolve to that same row — selects nothing. -/
theorem c2_counterexample :
    dC2.getGeneData "AT1G2532" = some bC2 ∧ gffRowC2 ∈ bC2.features ∧
      gffRowC2.info = "ID=AT1G25320" ∧ dC2.getGeneData "at1g25320" = none := by
  decide

/-- C1: evaluation of the engine at the claim's boundary scenario.  The
location table holds labels `SALK_1` and `SALK_10`; only line `SALK_1` is
confirmed for gene `G1`, yet the resolver also returns the `SALK_10` row's
coordinate (position 20), because the source matches labels by unanchored
substring containment (`loc.V1.includes(line)`) instead of the required
anchored token match (which the repository's R implementation performs with
a word-boundary regex). -/
theorem c1_substring_match_leak :
    dC1.getTDNAlines "G1" = ["SALK_1", "SALK_10"] ∧
      (dC1.getTDNALineDetails "G1").map (fun m => (m.lineId, m.position))
        = [("SALK_1", some 10), ("SALK_10", some 20)] := by
  decide
